import Mathlib

/-!
Verification of the realtime session protocol layer of the
multimodal-live-api-web-console repository, as a shallow embedding in Lean.

The embedding covers:
* the inbound/outbound message model and its structural type guards
  (`src/multimodal-live-types.ts`),
* the Session Client's receive/dispatch path, send operations, open/close
  handlers and disconnect (`src/lib/multimodal-live-client.ts`),
* `blobToJSON` (`src/lib/utils.ts`),
* the Log Sink (`src/lib/store-logger.ts`),
* the playback decoder `addPCM16` (AudioStreamer) and the capture worklet's
  `processChunk` (AudioProcessingWorklet).

Modelling conventions:
* A JavaScript value of unknown shape is modelled by `JValue`; `jsTypeof`
  mirrors the JS `typeof` operator (note `typeof null === "object"` and
  `typeof [] === "object"`).
* An inbound wire blob is `Option InMsg`: `none` stands for a payload whose
  text is not valid JSON (so `JSON.parse` throws inside `blobToJSON`),
  `some m` for a successfully parsed value, described by which of the four
  recognized top-level keys it carries and what sits under them.  A
  `serverContent` value of non-object JS type behaves exactly like an object
  carrying none of the three recognized keys (every guard fails, nothing is
  emitted), so it is represented by `SC` with all fields `none`.
* Effects (WebSocket sends, event emissions, log appends, console warnings)
  are reified as an ordered `Action` trace; machine integers are `Nat`/`Int`
  and exact sample arithmetic is over `ℚ` (every value the audio code
  manipulates — 16-bit integers divided by powers of two — is exactly
  representable in the Float32/Float64 arithmetic the source uses).
-/

namespace Src

/-- Model of a parsed JSON / JavaScript value (for payloads the client
forwards without inspecting their inner structure). -/
inductive JValue where
  | null : JValue
  | bool (b : Bool) : JValue
  | num (n : Int) : JValue
  | str (s : String) : JValue
  | arr (elems : List JValue) : JValue
  | obj (fields : List (String × JValue)) : JValue

/-- The JS `typeof` operator on a defined value.  `typeof null`,
`typeof []` and `typeof {}` are all `"object"`. -/
def jsTypeof : JValue → String
  | .null => "object"
  | .bool _ => "boolean"
  | .num _ => "number"
  | .str _ => "string"
  | .arr _ => "object"
  | .obj _ => "object"

/-- Property lookup `v[k]` on an object; `none` models `undefined`. -/
def lookupField : List (String × JValue) → String → Option JValue
  | [], _ => none
  | (k, v) :: rest, key => if k = key then some v else lookupField rest key

/-- `inlineData` of a `Part` (`GenerativeContentBlob`): a MIME type and a
base64 payload.  `data` is `Option String` so that a runtime value whose
`data` field is absent (possible for untyped wire input even though the TS
type requires it) is representable; `some ""` is the empty payload. -/
structure InlineData where
  mimeType : String
  data : Option String
deriving DecidableEq, Repr

/-- Minimal content unit (`Part` from `@google/generative-ai`): inline text
and/or an inline binary blob. -/
structure Part where
  text : Option String := none
  inlineData : Option InlineData := none
deriving DecidableEq, Repr

/-- `Content`: a role plus an ordered sequence of parts. -/
structure Content where
  role : String
  parts : List Part
deriving DecidableEq, Repr

/-- `GenerativeContentBlob`: media chunk for `realtimeInput`. -/
structure GenerativeContentBlob where
  mimeType : String
  data : String
deriving DecidableEq, Repr

/-- `LiveConfig` (multimodal-live-types.ts).  Only the `model` field is
carried: the remaining optional fields never influence the client's control
flow — the config is stored and echoed into the `Setup` frame verbatim. -/
structure LiveConfig where
  model : String
deriving DecidableEq, Repr

/-- `ServerContent` as the receive path actually observes it: which of the
three recognized keys are present, and with what.  The guards check
`"interrupted" in value` (presence only), `typeof value.turnComplete ===
"boolean"`, and `"modelTurn" in value` (presence only); the code then reads
`modelTurn.parts` directly. -/
structure SC where
  interrupted : Option JValue := none
  turnComplete : Option JValue := none
  modelTurn : Option (List Part) := none

/-- A successfully parsed inbound frame, described by which of the four
recognized top-level keys it carries.  Payloads that are merely forwarded
(`toolCall`, `toolCallCancellation`) stay as raw `JValue`s. -/
structure InMsg where
  toolCall : Option JValue := none
  toolCallCancellation : Option JValue := none
  setupComplete : Option JValue := none
  serverContent : Option SC := none

/-- `prop(value, propName)` from multimodal-live-types.ts: the key is
present and the field's JS type is `"object"`. -/
def propObject (field : Option JValue) : Bool :=
  match field with
  | some v => jsTypeof v = "object"
  | none => false

/-- `isToolCallCancellation`: non-null object whose `ids` field is an
array.  (`null` is excluded explicitly; a JS array has no `ids` key, so it
also fails.) -/
def isToolCallCancellationV : JValue → Bool
  | .obj fields =>
    match lookupField fields "ids" with
    | some (.arr _) => true
    | _ => false
  | _ => false

/-- `isToolCallMessage`. -/
def isToolCallMessage (m : InMsg) : Bool :=
  propObject m.toolCall

/-- `isToolCallCancellationMessage`. -/
def isToolCallCancellationMessage (m : InMsg) : Bool :=
  propObject m.toolCallCancellation &&
    (match m.toolCallCancellation with
     | some v => isToolCallCancellationV v
     | none => false)

/-- `isSetupCompleteMessage`. -/
def isSetupCompleteMessage (m : InMsg) : Bool :=
  match m.setupComplete with
  | some v => jsTypeof v = "object"
  | none => false

/-- `isServerContenteMessage` (sic — the source's spelling). -/
def isServerContenteMessage (m : InMsg) : Bool :=
  m.serverContent.isSome

/-- `isInterrupted`: checks only `"interrupted" in value`. -/
def isInterrupted (sc : SC) : Bool :=
  sc.interrupted.isSome

/-- `isTurnComplete`: `"turnComplete" in value` and
`typeof value.turnComplete === "boolean"`. -/
def isTurnComplete (sc : SC) : Bool :=
  match sc.turnComplete with
  | some (.bool _) => true
  | _ => false

/-- `isModelTurn`: checks only `"modelTurn" in value`. -/
def isModelTurn (sc : SC) : Bool :=
  sc.modelTurn.isSome

/-- Events of `MultimodalLiveClientEventTypes`.  The constructor for the
`open` event is named `opened` because `open` is a Lean keyword; `audio`
carries the part's base64 payload (the client decodes it with
`base64ToArrayBuffer` before emitting — the byte decoding itself is not
inspected by any dispatch decision, so the event is identified by the
payload string it decodes). -/
inductive Event where
  | opened : Event
  | close : Event
  | audio (data : String) : Event
  | content (parts : List Part) : Event
  | interrupted : Event
  | setupcomplete : Event
  | turncomplete : Event
  | toolcall (payload : JValue) : Event
  | toolcallcancellation (payload : JValue) : Event

/-- Outbound wire frames (`LiveOutgoingMessage`). -/
inductive Frame where
  | setup (config : LiveConfig) : Frame
  | clientContent (turns : List Content) (turnComplete : Bool) : Frame
  | realtimeInput (mediaChunks : List GenerativeContentBlob) : Frame
  | toolResponse (payload : JValue) : Frame

/-- One observable effect of the Session Client, in program order. -/
inductive Action where
  | send (socket : Nat) (frame : Frame) : Action
  | emit (e : Event) : Action
  | log (type : String) : Action
  | warn : Action
  | closeSocket (socket : Nat) : Action

/-- Mutable state of `MultimodalLiveClient`: the stored socket reference
(`ws`, identified by a socket id) and the stored `config`. -/
structure ClientState where
  ws : Option Nat := none
  config : Option LiveConfig := none

/-- `blobToJSON` (utils.ts): on text that is not valid JSON, `JSON.parse`
throws inside the reader callback and the promise is REJECTED with
`Error('Failed to parse blob as JSON')`; on valid JSON it resolves to the
parsed value.  A rejected promise is modelled as `Except.error`. -/
def blobToJSON (blob : Option InMsg) : Except String InMsg :=
  match blob with
  | none => .error "Failed to parse blob as JSON"
  | some v => .ok v

/-- JS `String.prototype.startsWith`: code-point prefix test (modelled as
a list-of-characters prefix, which the kernel can evaluate). -/
def strStartsWith (s pre : String) : Bool :=
  pre.toList.isPrefixOf s.toList

/-- `p.inlineData?.mimeType.startsWith("audio/pcm")` — the predicate
`separateContentParts` filters with (optional chaining yields `undefined`,
which is falsy, when `inlineData` is absent). -/
def isAudioPart (p : Part) : Bool :=
  match p.inlineData with
  | some d => strStartsWith d.mimeType "audio/pcm"
  | none => false

/-- lodash `difference(l, exclude)`: the elements of `l` that compare equal
to no element of `exclude` (SameValueZero; structural equality here — see
`otherParts_eq_filter_not` for why this coincides with the reference-based
JS behaviour when `exclude` is a filtered sublist of `l`). -/
def lodashDifference [BEq α] (l exclude : List α) : List α :=
  l.filter (fun x => !(exclude.contains x))

/-- `MultimodalLiveClient.separateContentParts`:
`audioParts = parts.filter(...)`, `otherParts = difference(parts,
audioParts)`. -/
def separateContentParts (parts : List Part) : List Part × List Part :=
  (parts.filter isAudioPart, lodashDifference parts (parts.filter isAudioPart))

/-- The loop body of `processAudioParts` for one part:
`if (part.inlineData?.data)` is a JS truthiness test, so both an absent
`data` field (`undefined`) and the empty string produce no actions at all;
otherwise the decoded audio is emitted and a `server.audio` entry logged. -/
def audioPartActions (p : Part) : List Action :=
  match p.inlineData with
  | some d =>
    match d.data with
    | some s => if s ≠ "" then [.emit (.audio s), .log "server.audio"] else []
    | none => []
  | none => []

/-- `MultimodalLiveClient.processAudioParts`: the `for…of` loop over the
audio parts, in order. -/
def processAudioParts : List Part → List Action
  | [] => []
  | p :: rest => audioPartActions p ++ processAudioParts rest

/-- `MultimodalLiveClient.processModelTurn`: split the parts, process the
audio parts, then — only when non-audio parts remain — emit a single
batched `content` event followed by its `server.content` log entry. -/
def processModelTurn (parts : List Part) : List Action :=
  processAudioParts (separateContentParts parts).1 ++
    (if (separateContentParts parts).2.length ≠ 0 then
      [.emit (.content (separateContentParts parts).2), .log "server.content"]
    else [])

/-- `MultimodalLiveClient.handleServerContent`: `interrupted` short-circuits
with a `return`; otherwise `turnComplete` and `modelTurn` are two
independent `if`s evaluated in that order. -/
def handleServerContent (sc : SC) : List Action :=
  if isInterrupted sc then
    [.log "receive.serverContent", .emit .interrupted]
  else
    (if isTurnComplete sc then [.log "server.send", .emit .turncomplete] else []) ++
      (match sc.modelTurn with
       | some parts => processModelTurn parts
       | none => [])

/-- The dispatch chain of `MultimodalLiveClient.receive` on a successfully
parsed message: guards tried in source order, first match wins, anything
unmatched only triggers `console.warn`. -/
def receiveDispatch (m : InMsg) : List Action :=
  if isToolCallMessage m then
    [.log "server.toolCall", .emit (.toolcall (m.toolCall.getD .null))]
  else if isToolCallCancellationMessage m then
    [.log "receive.toolCallCancellation",
     .emit (.toolcallcancellation (m.toolCallCancellation.getD .null))]
  else if isSetupCompleteMessage m then
    [.log "server.send", .emit .setupcomplete]
  else if isServerContenteMessage m then
    handleServerContent (m.serverContent.getD {})
  else
    [.warn]

/-- `MultimodalLiveClient.receive`: `await blobToJSON(blob)` — a rejected
promise re-throws at the `await`, so the parse failure propagates to
`receive`'s caller untouched (there is no try/catch and no log call on that
path); a parsed message is dispatched. -/
def receive (blob : Option InMsg) : Except String (List Action) :=
  match blobToJSON blob with
  | .error e => .error e
  | .ok m => .ok (receiveDispatch m)

/-- `MultimodalLiveClient._sendDirect`: throws `"WebSocket is not
connected"` when no socket reference is stored, otherwise hands the frame
to the transport. -/
def sendDirect (s : ClientState) (request : Frame) : Except String (List Action) :=
  match s.ws with
  | none => .error "WebSocket is not connected"
  | some sid => .ok [.send sid request]

/-- `MultimodalLiveClient.send(parts, turnComplete)`: wraps the parts as a
single user-role content turn, sends, then logs `client.send`. -/
def send (s : ClientState) (parts : List Part) (turnComplete : Bool) :
    Except String (List Action) :=
  let content : Content := { role := "user", parts := parts }
  match sendDirect s (.clientContent [content] turnComplete) with
  | .error e => .error e
  | .ok acts => .ok (acts ++ [.log "client.send"])

/-- Index of the first occurrence of `pat` in the second list, as JS
`String.prototype.indexOf` (`none` when absent, 0 for the empty pattern). -/
def firstInfixIdx [BEq α] (pat : List α) : List α → Option Nat
  | [] => if pat.isPrefixOf ([] : List α) then some 0 else none
  | x :: t =>
    if pat.isPrefixOf (x :: t) then some 0
    else (firstInfixIdx pat t).map (· + 1)

/-- JS `String.prototype.includes`. -/
def jsIncludes (s pat : String) : Bool :=
  (firstInfixIdx pat.toList s.toList).isSome

/-- `MultimodalLiveClient.analyzeMediaTypes`: one reduce over the chunks. -/
def analyzeMediaTypes (chunks : List GenerativeContentBlob) : Bool × Bool :=
  chunks.foldl
    (fun types chunk =>
      (types.1 || jsIncludes chunk.mimeType "audio",
       types.2 || jsIncludes chunk.mimeType "image"))
    (false, false)

/-- `MultimodalLiveClient.formatMediaMessage`. -/
def formatMediaMessage : Bool × Bool → String
  | (true, true) => "audio + video"
  | (true, false) => "audio"
  | (false, true) => "video"
  | (false, false) => "unknown"

/-- `MultimodalLiveClient.sendRealtimeInput`: the media-type analysis is
pure and precedes the send; `_sendDirect` throws before the log call when
no socket is stored. -/
def sendRealtimeInput (s : ClientState) (chunks : List GenerativeContentBlob) :
    Except String (List Action) :=
  let _message := formatMediaMessage (analyzeMediaTypes chunks)
  match sendDirect s (.realtimeInput chunks) with
  | .error e => .error e
  | .ok acts => .ok (acts ++ [.log "client.realtimeInput"])

/-- `MultimodalLiveClient.sendToolResponse`. -/
def sendToolResponse (s : ClientState) (toolResponse : JValue) :
    Except String (List Action) :=
  match sendDirect s (.toolResponse toolResponse) with
  | .error e => .error e
  | .ok acts => .ok (acts ++ [.log "client.toolResponse"])

/-- The `open` listener installed by `establishConnection`
(`handleOpenConnection`): with no stored config the promise is rejected;
otherwise it logs `client.open`, emits the `open` event, stores the socket
reference, sends `Setup{config}` through `_sendDirect` (the first and only
frame this handler puts on the wire), and logs `client.send`. -/
def handleOpenConnection (s : ClientState) (sid : Nat) :
    Except String (ClientState × List Action) :=
  match s.config with
  | none => .error "Invalid config provided to connect()"
  | some cfg =>
    let s' := { s with ws := some sid }
    match sendDirect s' (.setup cfg) with
    | .error e => .error e
    | .ok sendActs =>
      .ok (s', [.log "client.open", .emit .opened] ++ sendActs ++ [.log "client.send"])

/-- `MultimodalLiveClient.disconnect(ws?)`: acts only when
`(!ws || this.ws === ws) && this.ws` — i.e. a socket reference is stored
and the argument is absent or that very socket.  It then closes the
socket, clears the stored reference, logs `client.close` and returns
`true`; in every other case it returns `false` having done nothing.
(The `close` EVENT is not emitted here: it is emitted by the socket's
close listener, `handleCloseConnection`, which the closure triggers.) -/
def disconnect (s : ClientState) (wsArg : Option Nat) :
    Bool × ClientState × List Action :=
  match s.ws with
  | some cur =>
    if wsArg = none ∨ wsArg = some cur then
      (true, { s with ws := none }, [.closeSocket cur, .log "client.close"])
    else
      (false, s, [])
  | none => (false, s, [])

/-- `MultimodalLiveClient.parseCloseReason`: when the lowercased reason
contains "error" and the marker `ERROR]` occurs at a positive index, keep
what follows the marker plus one separator character; otherwise return the
reason unchanged. -/
def parseCloseReason (reason : String) : String :=
  if !(jsIncludes reason.toLower "error") then reason
  else
    let preludeStr := "ERROR]"
    match firstInfixIdx preludeStr.toList reason.toList with
    | some idx =>
      if idx > 0 then
        ⟨reason.toList.drop (idx + preludeStr.length + 1)⟩
      else reason
    | none => reason

/-- The `close` listener installed on the socket at open
(`handleCloseConnection`): runs `disconnect(ws)` (a no-op returning `false`
when the stored reference was already cleared), parses the close reason,
logs `server.close`, and emits the `close` event. -/
def handleCloseConnection (s : ClientState) (sid : Nat) (reason : String) :
    ClientState × List Action :=
  let r := disconnect s (some sid)
  let _parsed := parseCloseReason reason
  (r.2.1, r.2.2 ++ [.log "server.close", .emit .close])

/-! ## Log Sink (`src/lib/store-logger.ts`) -/

/-- `StreamingLog` (multimodal-live-types.ts): timestamp, type tag, optional
repeat count, payload.  The payload type is a parameter with decidable
equality: the store compares payloads with `===`, which is value equality
for the string payloads and identity for object payloads — for the dedup
claim both are "the same payload". -/
structure StreamingLog (μ : Type) where
  date : Nat
  type : String
  count : Option Nat := none
  message : μ
deriving DecidableEq, Repr

/-- State of `useLoggerStore`. -/
structure LoggerState (μ : Type) where
  maxLogs : Nat := 500
  logs : List (StreamingLog μ) := []
deriving DecidableEq, Repr

/-- `state.logs.slice(-(maxLogs - 1))` with JS `Array.prototype.slice`
semantics: for `maxLogs ≥ 2` the argument is a negative number `-(maxLogs-1)`
and the last `maxLogs - 1` elements are kept; for `maxLogs = 1` the argument
is `-0`, which `slice` treats as `0`, keeping the WHOLE array; for
`maxLogs = 0` the argument is `1`, dropping only the first element. -/
def sliceTail (l : List α) (maxLogs : Nat) : List α :=
  if maxLogs = 0 then l.drop 1
  else if maxLogs = 1 then l
  else l.drop (l.length - (maxLogs - 1))

/-- `useLoggerStore.log`: if the incoming entry has the same `type` and
`message` as the last stored entry, replace that entry with a copy whose
count is `(prev.count || 0) + 1`; otherwise append it after the
`slice`-based eviction above. -/
def loggerLog [DecidableEq μ] (state : LoggerState μ) (streamingLog : StreamingLog μ) :
    LoggerState μ :=
  match state.logs.getLast? with
  | some prevLog =>
    if prevLog.type = streamingLog.type ∧ prevLog.message = streamingLog.message then
      { state with
        logs := state.logs.dropLast ++
          [{ prevLog with count := some (prevLog.count.getD 0 + 1) }] }
    else
      { state with logs := sliceTail state.logs state.maxLogs ++ [streamingLog] }
  | none =>
    { state with logs := sliceTail state.logs state.maxLogs ++ [streamingLog] }

/-! ## Audio Playback Pipeline (`AudioStreamer.addPCM16`) -/

/-- The sample loop of `AudioStreamer.addPCM16`: for each consecutive byte
pair, `sample = (data[i] << 8) | data[i + 1]` (a JS 32-bit bitwise
combination of two bytes `< 256`, hence the plain value `data[i]*256 +
data[i+1]` with NO sign extension), stored as `sample / 32768`.  The
quotient of a 16-bit integer by `2^15` is exactly representable in the
Float32 channel buffer, so `ℚ` models the stored values exactly. -/
def addPCM16Samples : List Nat → List ℚ
  | b0 :: b1 :: rest =>
    (((((b0 <<< 8) ||| b1 : Nat)) : ℚ) / 32768) :: addPCM16Samples rest
  | _ => []

/-- Decoder following the spec's words, for comparison with
`addPCM16Samples`: "decodes big-endian 16-bit signed samples (combining
each consecutive byte pair, high byte first) … normalizes to float [-1,1]
by dividing by 32768". -/
def specSignedPCM16 : List Nat → List ℚ
  | b0 :: b1 :: rest =>
    let u : Nat := b0 * 256 + b1
    let s : Int := if u < 32768 then (u : Int) else (u : Int) - 65536
    ((s : ℚ) / 32768) :: specSignedPCM16 rest
  | _ => []

/-! ## Audio Capture Pipeline (`AudioProcessingWorklet`) -/

/-- JS `Math.round`: round half toward positive infinity, i.e.
`⌊x + 1/2⌋`. -/
def jsMathRound (q : ℚ) : Int :=
  ⌊q + 1 / 2⌋

/-- Rounding as the spec describes it ("round-half-away-from-zero"), for
comparison with `jsMathRound`. -/
def roundHalfAwayFromZero (q : ℚ) : Int :=
  if 0 ≤ q then ⌊q + 1 / 2⌋ else -⌊-q + 1 / 2⌋

/-- Storing into the `Int16Array` slot: JS `ToInt16` wrap. -/
def toInt16 (z : Int) : Int :=
  ((z + 32768) % 65536) - 32768

/-- `AudioProcessingWorklet.BUFFER_SIZE`. -/
def BUFFER_SIZE : Nat := 2048

/-- `AudioProcessingWorklet.INT16_MAX`, the `conversionFactor`. -/
def INT16_MAX : Int := 32767

/-- `AudioProcessingWorklet.processChunk`: each Float32 sample is converted
with `Math.round(float32Array[i] * conversionFactor)` and written into the
`Int16Array` accumulation buffer (`st` holds the pending samples;
`bufferWriteIndex = st.length`); when the buffer fills to `BUFFER_SIZE` it
is flushed via `sendAndClearBuffer`.  Returns the pending buffer after the
chunk together with the list of flushed buffers, in order. -/
def processChunk (st : List Int) : List ℚ → List Int × List (List Int)
  | [] => (st, [])
  | x :: rest =>
    let st' := st ++ [toInt16 (jsMathRound (x * (INT16_MAX : ℚ)))]
    if st'.length ≥ BUFFER_SIZE then
      let r := processChunk [] rest
      (r.1, st' :: r.2)
    else
      processChunk st' rest

/-! ## Observation helpers and shared lemmas -/

/-- Recognizes an `audio` event emission. -/
def isAudioEmit : Action → Bool
  | .emit (.audio _) => true
  | _ => false

/-- Recognizes a `content` event emission. -/
def isContentEmit : Action → Bool
  | .emit (.content _) => true
  | _ => false

/-- Number of `audio` events in a trace. -/
def countAudioEvents (acts : List Action) : Nat :=
  acts.countP isAudioEmit

/-- Number of `content` events in a trace. -/
def countContentEvents (acts : List Action) : Nat :=
  acts.countP isContentEmit

/-- JS truthiness of `part.inlineData?.data`. -/
def hasAudioData (p : Part) : Bool :=
  match p.inlineData with
  | some d =>
    match d.data with
    | some s => s ≠ ""
    | none => false
  | none => false

/-- The outbound frame carried by a `send` action, if any. -/
def wireSend? : Action → Option (Nat × Frame)
  | .send sid f => some (sid, f)
  | _ => none

/-- A filter and its complementary filter split the length of a list. -/
theorem length_filter_add_length_filter_not (l : List Part) :
    (l.filter isAudioPart).length + (l.filter (fun p => !(isAudioPart p))).length
      = l.length := by
  induction l with
  | nil => rfl
  | cons p rest ih =>
    rw [List.filter_cons, List.filter_cons]
    by_cases hp : isAudioPart p <;> (simp [hp]; omega)

/-- `difference(parts, parts.filter(pred))` is exactly
`parts.filter(!pred)`: an element of `parts` lies in the filtered list iff
the predicate holds of it (this also matches the reference-equality JS
behaviour, since each kept element occurs in the original by identity). -/
theorem otherParts_eq_filter_not (parts : List Part) :
    (separateContentParts parts).2 = parts.filter (fun p => !(isAudioPart p)) := by
  show lodashDifference parts (parts.filter isAudioPart) = _
  unfold lodashDifference
  refine List.filter_congr ?_
  intro x hx
  by_cases h : isAudioPart x <;> simp [List.mem_filter, hx, h]

/-- Every action produced by the audio-part loop is an `audio` emission or
a `server.audio` log entry. -/
theorem mem_processAudioParts (l : List Part) (a : Action)
    (h : a ∈ processAudioParts l) :
    (∃ s, a = .emit (.audio s)) ∨ a = .log "server.audio" := by
  induction l with
  | nil => simp [processAudioParts] at h
  | cons p rest ih =>
    rw [show processAudioParts (p :: rest) =
          audioPartActions p ++ processAudioParts rest from rfl,
        List.mem_append] at h
    rcases h with h | h
    · obtain ⟨t, inl⟩ := p
      rcases inl with _ | ⟨mt, dt⟩
      · simp [audioPartActions] at h
      · rcases dt with _ | s
        · simp [audioPartActions] at h
        · by_cases hs : s = ""
          · simp [audioPartActions, hs] at h
          · simp [audioPartActions, hs] at h
            rcases h with h | h
            · exact Or.inl ⟨s, h⟩
            · exact Or.inr h
    · exact ih h

/-- The per-part action list holds one `audio` event when the part's data
is truthy, and none otherwise. -/
theorem countAudio_audioPartActions (p : Part) :
    countAudioEvents (audioPartActions p) = if hasAudioData p then 1 else 0 := by
  obtain ⟨t, inl⟩ := p
  rcases inl with _ | ⟨mt, dt⟩
  · simp [audioPartActions, hasAudioData, countAudioEvents]
  · rcases dt with _ | s
    · simp [audioPartActions, hasAudioData, countAudioEvents]
    · by_cases hs : s = "" <;>
        simp [audioPartActions, hasAudioData, countAudioEvents, isAudioEmit, hs,
          List.countP_cons]

/-- The audio loop emits one `audio` event per part with truthy data. -/
theorem countAudio_processAudioParts (l : List Part) :
    countAudioEvents (processAudioParts l) = (l.filter hasAudioData).length := by
  induction l with
  | nil => rfl
  | cons p rest ih =>
    have hstep : countAudioEvents (processAudioParts (p :: rest)) =
        countAudioEvents (audioPartActions p) +
          countAudioEvents (processAudioParts rest) := by
      show (audioPartActions p ++ processAudioParts rest).countP isAudioEmit = _
      rw [List.countP_append]
      rfl
    rw [hstep, countAudio_audioPartActions, ih, List.filter_cons]
    by_cases hda : hasAudioData p <;> (simp [hda]; try omega)

/-- The audio loop emits no `content` event. -/
theorem countContent_processAudioParts (l : List Part) :
    countContentEvents (processAudioParts l) = 0 := by
  rw [countContentEvents, List.countP_eq_zero]
  intro a ha
  rcases mem_processAudioParts l a ha with ⟨s, rfl⟩ | rfl <;> simp [isContentEmit]

/-- A `content` event in a model-turn trace always carries exactly the
non-audio partition. -/
theorem content_mem_processModelTurn (parts : List Part) (ps : List Part)
    (h : Action.emit (Event.content ps) ∈ processModelTurn parts) :
    ps = (separateContentParts parts).2 := by
  unfold processModelTurn at h
  rw [List.mem_append] at h
  rcases h with h | h
  · rcases mem_processAudioParts _ _ h with ⟨s, hs⟩ | hs <;> simp at hs
  · by_cases hne : (separateContentParts parts).2.length ≠ 0
    · rw [if_pos hne] at h
      simp at h
      exact h
    · rw [if_neg hne] at h
      simp at h

/-- The model-turn trace never emits `setupcomplete`. -/
theorem setupcomplete_not_in_processModelTurn (parts : List Part) :
    Action.emit Event.setupcomplete ∉ processModelTurn parts := by
  intro h
  unfold processModelTurn at h
  rw [List.mem_append] at h
  rcases h with h | h
  · rcases mem_processAudioParts _ _ h with ⟨s, hs⟩ | hs <;> simp at hs
  · by_cases hne : (separateContentParts parts).2.length ≠ 0
    · rw [if_pos hne] at h
      simp at h
    · rw [if_neg hne] at h
      simp at h

/-- `handleServerContent` never emits `setupcomplete`. -/
theorem setupcomplete_not_in_handleServerContent (sc : SC) :
    Action.emit Event.setupcomplete ∉ handleServerContent sc := by
  intro h
  unfold handleServerContent at h
  by_cases hI : isInterrupted sc
  · rw [if_pos hI] at h
    simp at h
  · rw [if_neg hI, List.mem_append] at h
    rcases h with h | h
    · by_cases hT : isTurnComplete sc
      · rw [if_pos hT] at h
        simp at h
      · rw [if_neg hT] at h
        simp at h
    · rcases hm : sc.modelTurn with _ | parts <;> rw [hm] at h
      · simp at h
      · exact setupcomplete_not_in_processModelTurn parts h

/-- `sliceTail` on an empty store is empty. -/
theorem sliceTail_nil (m : Nat) : sliceTail ([] : List α) m = [] := by
  unfold sliceTail
  by_cases h0 : m = 0
  · simp [h0]
  · by_cases h1 : m = 1 <;> simp [h0, h1]

/-- `loggerLog` unfolded when a last entry exists. -/
theorem loggerLog_last_some [DecidableEq μ] (st : LoggerState μ)
    (e prev : StreamingLog μ) (hlast : st.logs.getLast? = some prev) :
    loggerLog st e =
      if prev.type = e.type ∧ prev.message = e.message then
        { st with logs := st.logs.dropLast ++
            [{ prev with count := some (prev.count.getD 0 + 1) }] }
      else { st with logs := sliceTail st.logs st.maxLogs ++ [e] } := by
  unfold loggerLog
  rw [hlast]

/-- `loggerLog` unfolded on an empty store. -/
theorem loggerLog_last_none [DecidableEq μ] (st : LoggerState μ)
    (e : StreamingLog μ) (hlast : st.logs.getLast? = none) :
    loggerLog st e = { st with logs := sliceTail st.logs st.maxLogs ++ [e] } := by
  unfold loggerLog
  rw [hlast]

/-! ## Claims -/

/-- C1, counterexample: the claim "the decode step never throws to its
caller; it yields a distinguishable parse-failed result that is logged and
discarded" is FALSE on the code.  On a malformed-JSON blob, `blobToJSON`
rejects and `receive` — which merely `await`s it — propagates the
rejection: `receive` resolves to an error, not to any (logged) action
trace. -/
theorem C1_counterexample :
    receive (none : Option InMsg) = Except.error "Failed to parse blob as JSON" ∧
    ¬ ∃ acts : List Action, receive (none : Option InMsg) = Except.ok acts := by
  constructor
  · rfl
  · rintro ⟨acts, h⟩
    simp [receive, blobToJSON] at h

/-- C1 (amended): on malformed JSON, `blobToJSON` rejects with the
distinguishable error `"Failed to parse blob as JSON"`, which `receive`
propagates unchanged to its caller — it is not logged and not dispatched
(the socket is untouched, so the failure is not fatal to the session);
every successfully parsed frame is dispatched without error, and a parsed
frame matching none of the four recognized shapes produces only a console
warning and no events. -/
theorem C1_amended :
    (∀ blob : Option InMsg, blob = none →
      receive blob = Except.error "Failed to parse blob as JSON") ∧
    (∀ m : InMsg, receive (some m) = Except.ok (receiveDispatch m)) ∧
    (∀ m : InMsg,
      isToolCallMessage m = false →
      isToolCallCancellationMessage m = false →
      isSetupCompleteMessage m = false →
      isServerContenteMessage m = false →
      receiveDispatch m = [Action.warn]) := by
  refine ⟨?_, ?_, ?_⟩
  · rintro _ rfl
    rfl
  · intro m
    rfl
  · intro m h1 h2 h3 h4
    unfold receiveDispatch
    rw [if_neg (by simp [h1]), if_neg (by simp [h2]), if_neg (by simp [h3]),
      if_neg (by simp [h4])]

/-- C1 witness: instantiating the amended claim on the malformed blob and
on the empty (unrecognized) message. -/
theorem C1_amended_witness :
    receive (none : Option InMsg) = Except.error "Failed to parse blob as JSON" ∧
    receiveDispatch {} = [Action.warn] :=
  ⟨C1_amended.1 none rfl, C1_amended.2.2 {} rfl rfl rfl rfl⟩

/-- C2, counterexample: the claim "one audio event is emitted per audio
part" is FALSE on the code.  A part whose `inlineData.mimeType` starts with
`audio/pcm` but whose `data` is the empty string lands in the audio
partition (size 1), yet `processAudioParts` skips it (`if
(part.inlineData?.data)` is falsy), so zero audio events are emitted. -/
theorem C2_counterexample :
    ¬ (countAudioEvents (processModelTurn
        [{ text := none,
           inlineData := some { mimeType := "audio/pcm;rate=24000", data := some "" } }]) =
      (separateContentParts
        [{ text := none,
           inlineData := some { mimeType := "audio/pcm;rate=24000", data := some "" } }]).1.length) := by
  decide

/-- C2 (amended): for every `ModelTurn` parts list, the partition is
exhaustive (sizes sum to the total) and order-preserving (each partition is
a sublist of the source, characterized as the filters by the audio
predicate and its negation); one audio event is emitted per audio part
WHOSE `inlineData.data` IS PRESENT AND NONEMPTY (empty/absent-data audio
parts are skipped); and exactly one `content` event — always carrying the
whole non-audio partition batched — is emitted iff at least one non-audio
part remains. -/
theorem C2_amended (parts : List Part) :
    (separateContentParts parts).1.length + (separateContentParts parts).2.length
        = parts.length ∧
    (separateContentParts parts).1.Sublist parts ∧
    (separateContentParts parts).2.Sublist parts ∧
    (separateContentParts parts).1 = parts.filter isAudioPart ∧
    (separateContentParts parts).2 = parts.filter (fun p => !(isAudioPart p)) ∧
    countAudioEvents (processModelTurn parts)
        = ((separateContentParts parts).1.filter hasAudioData).length ∧
    countContentEvents (processModelTurn parts)
        = (if (separateContentParts parts).2.isEmpty then 0 else 1) ∧
    (∀ ps, Action.emit (Event.content ps) ∈ processModelTurn parts →
      ps = (separateContentParts parts).2) := by
  have hother := otherParts_eq_filter_not parts
  refine ⟨?_, ?_, ?_, rfl, hother, ?_, ?_, content_mem_processModelTurn parts⟩
  · rw [show (separateContentParts parts).1 = parts.filter isAudioPart from rfl, hother]
    exact length_filter_add_length_filter_not parts
  · exact List.filter_sublist parts
  · rw [hother]
    exact List.filter_sublist parts
  · show countAudioEvents (processAudioParts (separateContentParts parts).1 ++ _) = _
    rw [countAudioEvents, List.countP_append, ← countAudioEvents]
    rw [countAudio_processAudioParts]
    have htail : List.countP isAudioEmit
        (if (separateContentParts parts).2.length ≠ 0 then
          [Action.emit (Event.content (separateContentParts parts).2),
           Action.log "server.content"]
        else []) = 0 := by
      by_cases hne : (separateContentParts parts).2.length ≠ 0 <;>
        simp [hne, isAudioEmit]
    rw [htail]
    omega
  · show countContentEvents (processAudioParts (separateContentParts parts).1 ++ _) = _
    rw [countContentEvents, List.countP_append, ← countContentEvents]
    rw [countContent_processAudioParts]
    by_cases hne : (separateContentParts parts).2.length ≠ 0
    · rw [if_pos hne]
      have : (separateContentParts parts).2.isEmpty = false := by
        rcases h2 : (separateContentParts parts).2 with _ | ⟨x, xs⟩
        · exact absurd (by rw [h2]; rfl) hne
        · rfl
      simp [this, countContentEvents, List.countP_cons, isContentEmit]
    · rw [if_neg hne]
      have hlen : (separateContentParts parts).2.length = 0 := by omega
      have : (separateContentParts parts).2.isEmpty = true := by
        rcases h2 : (separateContentParts parts).2 with _ | ⟨x, xs⟩
        · rfl
        · rw [h2] at hlen; simp at hlen
      simp [this, countContentEvents]

/-- C2 witness: a two-part turn — one audio part with data, one text
part — instantiating the amended claim's conditional conjuncts. -/
theorem C2_amended_witness :
    (∀ ps, Action.emit (Event.content ps) ∈ processModelTurn
        [{ text := none, inlineData := some { mimeType := "audio/pcm", data := some "QUJD" } },
         { text := some "hello", inlineData := none }] →
      ps = (separateContentParts
        [{ text := none, inlineData := some { mimeType := "audio/pcm", data := some "QUJD" } },
         { text := some "hello", inlineData := none }]).2) :=
  (C2_amended
    [{ text := none, inlineData := some { mimeType := "audio/pcm", data := some "QUJD" } },
     { text := some "hello", inlineData := none }]).2.2.2.2.2.2.2

/-- C3: within one inbound `ServerContent` frame the sub-dispatch order is
fixed.  If the frame is `Interrupted`, the trace is exactly the
`receive.serverContent` log plus the `interrupted` event — no
`turncomplete` and no content processing.  Otherwise, when the frame
carries both `turnComplete` and `modelTurn`, the trace is the
`turncomplete` emission (at index 1, after its log entry) followed by the
whole model-turn processing, so every `content` event sits at a strictly
later index than a `turncomplete` emission. -/
theorem C3_dispatch_order (sc : SC) :
    (isInterrupted sc = true →
      handleServerContent sc =
        [Action.log "receive.serverContent", Action.emit Event.interrupted]) ∧
    (isInterrupted sc = false → isTurnComplete sc = true →
      ∀ parts, sc.modelTurn = some parts →
        handleServerContent sc =
          Action.log "server.send" :: Action.emit Event.turncomplete ::
            processModelTurn parts ∧
        (∀ i ps, (handleServerContent sc).get? i
              = some (Action.emit (Event.content ps)) →
          ∃ j, j < i ∧ (handleServerContent sc).get? j
              = some (Action.emit Event.turncomplete))) := by
  constructor
  · intro hI
    unfold handleServerContent
    rw [if_pos hI]
  · intro hI hT parts hm
    have heq : handleServerContent sc =
        Action.log "server.send" :: Action.emit Event.turncomplete ::
          processModelTurn parts := by
      unfold handleServerContent
      rw [if_neg (by simp [hI]), if_pos hT, hm]
      rfl
    refine ⟨heq, ?_⟩
    intro i ps hc
    refine ⟨1, ?_, ?_⟩
    · rcases i with _ | _ | n
      · rw [heq] at hc
        simp at hc
      · rw [heq] at hc
        simp at hc
      · omega
    · rw [heq]
      rfl

/-- C3 witness: a frame with `turnComplete: true` and a one-text-part
`modelTurn` (not interrupted) produces `turncomplete` before the batched
content processing. -/
theorem C3_dispatch_order_witness :
    handleServerContent
        { interrupted := none, turnComplete := some (.bool true),
          modelTurn := some [{ text := some "hi", inlineData := none }] } =
      Action.log "server.send" :: Action.emit Event.turncomplete ::
        processModelTurn [{ text := some "hi", inlineData := none }] :=
  ((C3_dispatch_order
      { interrupted := none, turnComplete := some (.bool true),
        modelTurn := some [{ text := some "hi", inlineData := none }] }).2
    rfl rfl [{ text := some "hi", inlineData := none }] rfl).1

/-- C4: with no stored socket, every outbound send operation —
`send`, `sendRealtimeInput`, `sendToolResponse`, and the underlying
`_sendDirect` — fails synchronously with the `"WebSocket is not
connected"` condition: the result is the raised error (so the message is
not silently dropped) and no `send` action reaches the transport (so the
message never reaches it). -/
theorem C4_send_requires_socket (s : ClientState) (h : s.ws = none) :
    (∀ parts turnComplete,
      send s parts turnComplete = Except.error "WebSocket is not connected") ∧
    (∀ chunks,
      sendRealtimeInput s chunks = Except.error "WebSocket is not connected") ∧
    (∀ toolResponse,
      sendToolResponse s toolResponse = Except.error "WebSocket is not connected") ∧
    (∀ request,
      sendDirect s request = Except.error "WebSocket is not connected") := by
  have hd : ∀ request, sendDirect s request = Except.error "WebSocket is not connected" := by
    intro request
    unfold sendDirect
    rw [h]
  refine ⟨?_, ?_, ?_, hd⟩
  · intro parts turnComplete
    simp [send, hd]
  · intro chunks
    simp [sendRealtimeInput, hd]
  · intro toolResponse
    simp [sendToolResponse, hd]

/-- C4 witness: a fresh client (no socket) rejects one concrete message of
each outbound kind. -/
theorem C4_send_requires_socket_witness :
    send { ws := none, config := none } [{ text := some "hi", inlineData := none }] true
        = Except.error "WebSocket is not connected" ∧
    sendRealtimeInput { ws := none, config := none }
        [{ mimeType := "audio/pcm", data := "QUJD" }]
        = Except.error "WebSocket is not connected" ∧
    sendToolResponse { ws := none, config := none } JValue.null
        = Except.error "WebSocket is not connected" :=
  ⟨(C4_send_requires_socket { ws := none, config := none } rfl).1
      [{ text := some "hi", inlineData := none }] true,
   (C4_send_requires_socket { ws := none, config := none } rfl).2.1
      [{ mimeType := "audio/pcm", data := "QUJD" }],
   (C4_send_requires_socket { ws := none, config := none } rfl).2.2.1 JValue.null⟩

/-- C5, counterexample: "after every append the number of stored entries
never exceeds the configured capacity" is FALSE for capacity 1: the
eviction slice is `logs.slice(-(maxLogs - 1))` and `-(1 - 1)` is `-0`,
which JS `slice` treats as `slice(0)` (the whole array), so with
`maxLogs = 1` two differing appends leave 2 stored entries. -/
theorem C5_counterexample :
    ¬ ((loggerLog (loggerLog ({ maxLogs := 1, logs := [] } : LoggerState String)
          { date := 0, type := "a", message := "x" })
          { date := 1, type := "b", message := "y" }).logs.length ≤
        (loggerLog (loggerLog ({ maxLogs := 1, logs := [] } : LoggerState String)
          { date := 0, type := "a", message := "x" })
          { date := 1, type := "b", message := "y" }).maxLogs) := by
  decide

/-- C5 (amended): an entry matching the last stored entry's type and
payload is merged into it by bumping its repeat count (`(count || 0) + 1`);
a differing (or first) entry starts a new slot, appended last, after
dropping a prefix of the stored entries (oldest evicted first); the
configured capacity is preserved by every append PROVIDED THE CAPACITY IS
AT LEAST 2 (the `slice(-(maxLogs-1))` eviction degenerates at capacity 1,
where the log grows without bound); and the capacity setting itself is
never changed by an append. -/
theorem C5_log_sink {μ : Type} [DecidableEq μ]
    (st : LoggerState μ) (e : StreamingLog μ) :
    (∀ prev, st.logs.getLast? = some prev →
      prev.type = e.type → prev.message = e.message →
      (loggerLog st e).logs =
        st.logs.dropLast ++ [{ prev with count := some (prev.count.getD 0 + 1) }]) ∧
    (∀ prev, st.logs.getLast? = some prev →
      ¬(prev.type = e.type ∧ prev.message = e.message) →
      ∃ k, (loggerLog st e).logs = st.logs.drop k ++ [e]) ∧
    (st.logs = [] → (loggerLog st e).logs = [e]) ∧
    (2 ≤ st.maxLogs → st.logs.length ≤ st.maxLogs →
      (loggerLog st e).logs.length ≤ st.maxLogs) ∧
    (loggerLog st e).maxLogs = st.maxLogs := by
  refine ⟨?_, ?_, ?_, ?_, ?_⟩
  · intro prev hlast hty hmsg
    rw [loggerLog_last_some st e prev hlast, if_pos ⟨hty, hmsg⟩]
  · intro prev hlast hne
    rw [loggerLog_last_some st e prev hlast, if_neg hne]
    unfold sliceTail
    by_cases h0 : st.maxLogs = 0
    · rw [if_pos h0]
      exact ⟨1, rfl⟩
    · rw [if_neg h0]
      by_cases h1 : st.maxLogs = 1
      · rw [if_pos h1]
        exact ⟨0, by rw [List.drop_zero]⟩
      · rw [if_neg h1]
        exact ⟨st.logs.length - (st.maxLogs - 1), rfl⟩
  · intro hnil
    have hlast : st.logs.getLast? = none := by rw [hnil]; rfl
    rw [loggerLog_last_none st e hlast]
    show sliceTail st.logs st.maxLogs ++ [e] = [e]
    rw [hnil, sliceTail_nil]
    rfl
  · intro h2 hlen
    rcases hlast : st.logs.getLast? with _ | prev
    · rw [loggerLog_last_none st e hlast]
      have hnil : st.logs = [] := by
        rcases hh : st.logs with _ | ⟨x, xs⟩
        · rfl
        · rw [hh] at hlast; simp at hlast
      show (sliceTail st.logs st.maxLogs ++ [e]).length ≤ _
      rw [hnil, sliceTail_nil]
      show 1 ≤ st.maxLogs
      omega
    · have hne : st.logs ≠ [] := by
        intro hx
        rw [hx] at hlast
        simp at hlast
      have hpos : 1 ≤ st.logs.length := List.length_pos.mpr hne
      by_cases hdup : prev.type = e.type ∧ prev.message = e.message
      · rw [loggerLog_last_some st e prev hlast, if_pos hdup]
        show (st.logs.dropLast ++ [_]).length ≤ _
        rw [List.length_append, List.length_dropLast]
        simp only [List.length_cons, List.length_nil]
        omega
      · rw [loggerLog_last_some st e prev hlast, if_neg hdup]
        show (sliceTail st.logs st.maxLogs ++ [e]).length ≤ _
        unfold sliceTail
        rw [if_neg (by omega), if_neg (by omega)]
        rw [List.length_append, List.length_drop]
        simp only [List.length_cons, List.length_nil]
        omega
  · rcases hlast : st.logs.getLast? with _ | prev
    · rw [loggerLog_last_none st e hlast]
    · by_cases hdup : prev.type = e.type ∧ prev.message = e.message
      · rw [loggerLog_last_some st e prev hlast, if_pos hdup]
      · rw [loggerLog_last_some st e prev hlast, if_neg hdup]

/-- C5 witness: a duplicate append merges into the previous slot with
count 1, on a concrete one-entry store. -/
theorem C5_log_sink_witness :
    (loggerLog ({ maxLogs := 500, logs := [{ date := 0, type := "a", message := "x" }] }
        : LoggerState String)
      { date := 5, type := "a", message := "x" }).logs =
      [{ date := 0, type := "a", count := some 1, message := "x" }] := by
  have h := (C5_log_sink
      ({ maxLogs := 500, logs := [{ date := 0, type := "a", message := "x" }] }
        : LoggerState String)
      { date := 5, type := "a", message := "x" }).1
      { date := 0, type := "a", message := "x" } rfl rfl rfl
  simpa using h

/-- C6: on a connect attempt whose socket open succeeds (the stored config
being present), the open handler's wire output is exactly the single frame
`Setup{config}` on the new socket — so `Setup` is the first frame sent,
before any other outbound message; the `open` event fires in that handler;
no `setupcomplete` fires there, and in the receive path a `setupcomplete`
event is emitted only for a frame passing the `setupComplete` guard —
i.e. only after the server sends a `setupComplete` frame. -/
theorem C6_setup_first (s : ClientState) (sid : Nat) (cfg : LiveConfig)
    (h : s.config = some cfg) :
    ∃ s' acts, handleOpenConnection s sid = Except.ok (s', acts) ∧
      acts.filterMap wireSend? = [(sid, Frame.setup cfg)] ∧
      Action.emit Event.opened ∈ acts ∧
      Action.emit Event.setupcomplete ∉ acts ∧
      s'.ws = some sid ∧
      s'.config = some cfg ∧
      (∀ (m : InMsg) (acts2 : List Action),
        receive (some m) = Except.ok acts2 →
        Action.emit Event.setupcomplete ∈ acts2 →
        isSetupCompleteMessage m = true) := by
  refine ⟨{ s with ws := some sid },
    [.log "client.open", .emit .opened, .send sid (.setup cfg), .log "client.send"],
    ?_, ?_, ?_, ?_, rfl, ?_, ?_⟩
  · unfold handleOpenConnection
    rw [h]
    rfl
  · simp [wireSend?]
  · simp
  · simp
  · show s.config = some cfg
    exact h
  · intro m acts2 hrec hmem
    have hacts : acts2 = receiveDispatch m := by
      unfold receive blobToJSON at hrec
      exact (Except.ok.injEq _ _).mp hrec.symm |>.symm ▸ rfl
    rw [hacts] at hmem
    unfold receiveDispatch at hmem
    by_cases h1 : isToolCallMessage m
    · rw [if_pos h1] at hmem
      simp at hmem
    · rw [if_neg h1] at hmem
      by_cases h2 : isToolCallCancellationMessage m
      · rw [if_pos h2] at hmem
        simp at hmem
      · rw [if_neg h2] at hmem
        by_cases h3 : isSetupCompleteMessage m
        · exact h3
        · rw [if_neg h3] at hmem
          by_cases h4 : isServerContenteMessage m
          · rw [if_pos h4] at hmem
            exact absurd hmem (setupcomplete_not_in_handleServerContent _)
          · rw [if_neg h4] at hmem
            simp at hmem

/-- C6 witness: a client holding a stored config, opening socket 7. -/
theorem C6_setup_first_witness :
    ∃ s' acts,
      handleOpenConnection { ws := none, config := some { model := "models/gemini-2.0-flash-exp" } } 7
        = Except.ok (s', acts) ∧
      acts.filterMap wireSend? = [(7, Frame.setup { model := "models/gemini-2.0-flash-exp" })] ∧
      Action.emit Event.opened ∈ acts ∧
      Action.emit Event.setupcomplete ∉ acts ∧
      s'.ws = some 7 ∧
      s'.config = some { model := "models/gemini-2.0-flash-exp" } ∧
      (∀ (m : InMsg) (acts2 : List Action),
        receive (some m) = Except.ok acts2 →
        Action.emit Event.setupcomplete ∈ acts2 →
        isSetupCompleteMessage m = true) :=
  C6_setup_first { ws := none, config := some { model := "models/gemini-2.0-flash-exp" } } 7
    { model := "models/gemini-2.0-flash-exp" } rfl

/-- C7: `disconnect` is idempotent.  With a stored socket, the first call
closes that socket, clears the stored reference, returns `true`, and
leaves the stored config untouched; the closure's `close` listener
(`handleCloseConnection`) then emits the `close` event (its internal
re-`disconnect` is a no-op since the reference is already cleared) and
also preserves the config.  A second `disconnect` — or any call with no
socket present — returns `false`, changes nothing and emits nothing. -/
theorem C7_disconnect_idempotent (s : ClientState) (cur : Nat)
    (h : s.ws = some cur) :
    (disconnect s none).1 = true ∧
    (disconnect s none).2.1.ws = none ∧
    (disconnect s none).2.1.config = s.config ∧
    Action.closeSocket cur ∈ (disconnect s none).2.2 ∧
    Action.emit Event.close ∈ (handleCloseConnection (disconnect s none).2.1 cur "").2 ∧
    (handleCloseConnection (disconnect s none).2.1 cur "").1.config = s.config ∧
    disconnect (disconnect s none).2.1 none = (false, (disconnect s none).2.1, []) ∧
    (∀ (t : ClientState) (arg : Option Nat), t.ws = none →
      disconnect t arg = (false, t, [])) := by
  have hnone : ∀ (t : ClientState) (arg : Option Nat), t.ws = none →
      disconnect t arg = (false, t, []) := by
    intro t arg ht
    unfold disconnect
    rw [ht]
  have hfst : disconnect s none =
      (true, { s with ws := none }, [.closeSocket cur, .log "client.close"]) := by
    unfold disconnect
    rw [h]
    exact if_pos (Or.inl rfl)
  refine ⟨?_, ?_, ?_, ?_, ?_, ?_, ?_, hnone⟩
  · rw [hfst]
  · rw [hfst]
  · rw [hfst]
  · rw [hfst]
    simp
  · rw [hfst]
    show Action.emit Event.close ∈ (handleCloseConnection { s with ws := none } cur "").2
    unfold handleCloseConnection
    rw [hnone { s with ws := none } (some cur) rfl]
    simp
  · rw [hfst]
    show (handleCloseConnection { s with ws := none } cur "").1.config = s.config
    unfold handleCloseConnection
    rw [hnone { s with ws := none } (some cur) rfl]
  · rw [hfst]
    exact hnone { s with ws := none } none rfl

/-- C7 witness: a client with socket 3 and a stored config. -/
theorem C7_disconnect_idempotent_witness :
    (disconnect { ws := some 3, config := some { model := "m" } } none).1 = true ∧
    (disconnect { ws := some 3, config := some { model := "m" } } none).2.1.ws = none ∧
    (disconnect { ws := some 3, config := some { model := "m" } } none).2.1.config
      = some { model := "m" } ∧
    disconnect (disconnect { ws := some 3, config := some { model := "m" } } none).2.1 none
      = (false, (disconnect { ws := some 3, config := some { model := "m" } } none).2.1, []) := by
  have h := C7_disconnect_idempotent { ws := some 3, config := some { model := "m" } } 3 rfl
  exact ⟨h.1, h.2.1, h.2.2.1, h.2.2.2.2.2.2.1⟩

/-- C8: the spec's decode is violated — `addPCM16` combines each byte pair
WITHOUT sign extension (`(data[i] << 8) | data[i+1]` on two bytes is the
plain unsigned value), so its samples live in `[0, 2)` instead of the
signed `[-1, 1]` the claim (and the definition of PCM16) requires.  The
claim's particular instance `[0x00,0x01] ↦ 1/32768` does hold, but the
bytes `[0x80,0x00]` — signed sample −32768, i.e. −1.0 — decode to +1.0. -/
theorem C8_unsigned_decode_bug :
    addPCM16Samples [0x00, 0x01] = [1 / 32768] ∧
    addPCM16Samples [0x80, 0x00] = [1] ∧
    specSignedPCM16 [0x80, 0x00] = [-1] ∧
    addPCM16Samples [0x80, 0x00] ≠ specSignedPCM16 [0x80, 0x00] := by
  have h1 : ((0x00 <<< 8) ||| 0x01 : Nat) = 1 := by decide
  have h2 : ((0x80 <<< 8) ||| 0x00 : Nat) = 32768 := by decide
  refine ⟨?_, ?_, ?_, ?_⟩
  · show (((((0x00 <<< 8) ||| 0x01 : Nat)) : ℚ) / 32768) :: addPCM16Samples [] = _
    rw [h1]
    norm_num [addPCM16Samples]
  · show (((((0x80 <<< 8) ||| 0x00 : Nat)) : ℚ) / 32768) :: addPCM16Samples [] = _
    rw [h2]
    norm_num [addPCM16Samples]
  · show ((((if (0x80 * 256 + 0x00 : Nat) < 32768 then ((0x80 * 256 + 0x00 : Nat) : Int)
        else ((0x80 * 256 + 0x00 : Nat) : Int) - 65536) : Int) : ℚ) / 32768)
        :: specSignedPCM16 [] = _
    norm_num [specSignedPCM16]
  · intro heq
    have h3 : addPCM16Samples [0x80, 0x00] = [1] := by
      show (((((0x80 <<< 8) ||| 0x00 : Nat)) : ℚ) / 32768) :: addPCM16Samples [] = _
      rw [h2]
      norm_num [addPCM16Samples]
    have h4 : specSignedPCM16 [0x80, 0x00] = [-1] := by
      show ((((if (0x80 * 256 + 0x00 : Nat) < 32768 then ((0x80 * 256 + 0x00 : Nat) : Int)
          else ((0x80 * 256 + 0x00 : Nat) : Int) - 65536) : Int) : ℚ) / 32768)
          :: specSignedPCM16 [] = _
      norm_num [specSignedPCM16]
    rw [h3, h4] at heq
    norm_num at heq

/-- C9, counterexample: the capture conversion is `Math.round`, which
rounds halves toward +∞, NOT away from zero: at the Float32-exact input
`x = −1/2`, `x·32767 = −16383.5` and the code stores `−16383`, while
round-half-away-from-zero gives `−16384`. -/
theorem C9_counterexample :
    processChunk [] [-(1 / 2)] = ([-16383], []) ∧
    roundHalfAwayFromZero (-(1 / 2) * (INT16_MAX : ℚ)) = -16384 ∧
    (processChunk [] [-(1 / 2)]).1 ≠
      [roundHalfAwayFromZero (-(1 / 2) * (INT16_MAX : ℚ))] := by
  have hq : (-(1 / 2) * (INT16_MAX : ℚ)) = -16383.5 := by
    norm_num [INT16_MAX]
  have hfloor : jsMathRound (-(1 / 2) * (INT16_MAX : ℚ)) = -16383 := by
    unfold jsMathRound
    rw [hq]
    rw [show (-16383.5 : ℚ) + 1 / 2 = ((-16383 : Int) : ℚ) by norm_num]
    exact Int.floor_intCast _
  have hrhaz : roundHalfAwayFromZero (-(1 / 2) * (INT16_MAX : ℚ)) = -16384 := by
    unfold roundHalfAwayFromZero
    rw [hq]
    rw [if_neg (by norm_num)]
    rw [show -(-16383.5 : ℚ) + 1 / 2 = ((16384 : Int) : ℚ) by norm_num]
    rw [Int.floor_intCast]
  have hchunk : processChunk [] [-(1 / 2)] = ([-16383], []) := by
    simp only [processChunk]
    rw [hfloor]
    norm_num [BUFFER_SIZE, toInt16, processChunk]
  refine ⟨hchunk, hrhaz, ?_⟩
  rw [hchunk, hrhaz]
  intro hx
  simp at hx

/-- C9 (amended): each Float32 sample `x ∈ [−1,1]` is converted to the
16-bit signed integer `Math.round(x·32767) = ⌊x·32767 + 1/2⌋` (round half
toward +∞, which agrees with round-half-away-from-zero for `x ≥ 0` but not
at negative exact halves), accumulated into the fixed-capacity
`BUFFER_SIZE = 2048` buffer; every flushed buffer has exactly 2048 samples
and the pending buffer stays strictly below capacity. -/
theorem C9_capture_conversion :
    (∀ x : ℚ, -1 ≤ x → x ≤ 1 →
      processChunk [] [x] = ([jsMathRound (x * (INT16_MAX : ℚ))], [])) ∧
    (∀ x : ℚ, 0 ≤ x →
      jsMathRound (x * (INT16_MAX : ℚ)) = roundHalfAwayFromZero (x * (INT16_MAX : ℚ))) ∧
    (∀ (st : List Int) (xs : List ℚ), st.length < BUFFER_SIZE →
      (∀ c ∈ (processChunk st xs).2, c.length = BUFFER_SIZE) ∧
      (processChunk st xs).1.length < BUFFER_SIZE) := by
  refine ⟨?_, ?_, ?_⟩
  · intro x hlo hhi
    have hub : jsMathRound (x * (INT16_MAX : ℚ)) ≤ 32767 := by
      unfold jsMathRound
      have : x * (INT16_MAX : ℚ) + 1 / 2 < ((32768 : Int) : ℚ) := by
        have hcast : (INT16_MAX : ℚ) = 32767 := by norm_num [INT16_MAX]
        have hmul : x * (INT16_MAX : ℚ) ≤ 32767 := by
          rw [hcast]
          nlinarith
        push_cast
        linarith
      have := Int.floor_lt.mpr this
      omega
    have hlb : -32768 ≤ jsMathRound (x * (INT16_MAX : ℚ)) := by
      unfold jsMathRound
      refine Int.le_floor.mpr ?_
      have hcast : (INT16_MAX : ℚ) = 32767 := by norm_num [INT16_MAX]
      have hmul : -32767 ≤ x * (INT16_MAX : ℚ) := by
        rw [hcast]
        nlinarith
      push_cast
      linarith
    have hid : toInt16 (jsMathRound (x * (INT16_MAX : ℚ)))
        = jsMathRound (x * (INT16_MAX : ℚ)) := by
      unfold toInt16
      omega
    simp only [processChunk]
    rw [hid]
    norm_num [BUFFER_SIZE, processChunk]
  · intro x hx
    have h0 : (0 : ℚ) ≤ x * (INT16_MAX : ℚ) := by
      unfold INT16_MAX
      positivity
    unfold roundHalfAwayFromZero jsMathRound
    rw [if_pos h0]
  · intro st xs
    induction xs generalizing st with
    | nil =>
      intro h
      exact ⟨by intro c hc; simp [processChunk] at hc, by simpa [processChunk] using h⟩
    | cons x rest ih =>
      intro h
      by_cases hfull :
          (st ++ [toInt16 (jsMathRound (x * (INT16_MAX : ℚ)))]).length ≥ BUFFER_SIZE
      · have hstep : processChunk st (x :: rest) =
            ((processChunk [] rest).1,
              (st ++ [toInt16 (jsMathRound (x * (INT16_MAX : ℚ)))])
                :: (processChunk [] rest).2) := by
          simp only [processChunk]
          rw [if_pos hfull]
        have hlen : (st ++ [toInt16 (jsMathRound (x * (INT16_MAX : ℚ)))]).length
            = BUFFER_SIZE := by
          rw [List.length_append] at hfull ⊢
          simp only [List.length_cons, List.length_nil] at hfull ⊢
          omega
        have hrec := ih [] (by simp [BUFFER_SIZE])
        rw [hstep]
        refine ⟨?_, hrec.2⟩
        intro c hc
        rcases List.mem_cons.mp hc with hc | hc
        · rw [hc]
          exact hlen
        · exact hrec.1 c hc
      · have hstep : processChunk st (x :: rest) =
            processChunk (st ++ [toInt16 (jsMathRound (x * (INT16_MAX : ℚ)))]) rest := by
          simp only [processChunk]
          rw [if_neg hfull]
        rw [hstep]
        exact ih _ (by omega)

/-- C9 witness: the amended claim instantiated at the positive half
`x = 1/2` (where `Math.round` and round-half-away-from-zero agree) and at
an empty chunk against a partially filled buffer. -/
theorem C9_capture_conversion_witness :
    processChunk [] [(1 : ℚ) / 2]
        = ([jsMathRound ((1 : ℚ) / 2 * (INT16_MAX : ℚ))], []) ∧
    jsMathRound ((1 : ℚ) / 2 * (INT16_MAX : ℚ))
        = roundHalfAwayFromZero ((1 : ℚ) / 2 * (INT16_MAX : ℚ)) ∧
    (∀ c ∈ (processChunk [0] []).2, c.length = BUFFER_SIZE) :=
  ⟨C9_capture_conversion.1 ((1 : ℚ) / 2) (by norm_num) (by norm_num),
   C9_capture_conversion.2.1 ((1 : ℚ) / 2) (by norm_num),
   (C9_capture_conversion.2.2 [0] [] (by norm_num [BUFFER_SIZE])).1⟩

/-- C10: an audio-typed part (`inlineData.mimeType` starting with
`audio/pcm`) whose `data` is absent or empty is classified into the audio
partition — hence excluded from the batched `content` event — yet the
audio loop produces NO action for it (no `audio` event, no `server.audio`
log entry): it vanishes from the observable event surface. -/
theorem C10_empty_audio_dropped (parts : List Part) (p : Part) (hmem : p ∈ parts)
    (d : InlineData) (hinl : p.inlineData = some d)
    (hmt : strStartsWith d.mimeType "audio/pcm" = true)
    (hd : d.data = none ∨ d.data = some "") :
    p ∈ (separateContentParts parts).1 ∧
    p ∉ (separateContentParts parts).2 ∧
    audioPartActions p = [] ∧
    (∀ ps, Action.emit (Event.content ps) ∈ processModelTurn parts → p ∉ ps) := by
  have haudio : isAudioPart p = true := by
    unfold isAudioPart
    rw [hinl]
    exact hmt
  have hnot : p ∉ (separateContentParts parts).2 := by
    rw [otherParts_eq_filter_not]
    intro hc
    have := (List.mem_filter.mp hc).2
    rw [haudio] at this
    simp at this
  refine ⟨List.mem_filter.mpr ⟨hmem, haudio⟩, hnot, ?_, ?_⟩
  · rcases hd with hd | hd <;> simp [audioPartActions, hinl, hd]
  · intro ps hc
    rw [content_mem_processModelTurn parts ps hc]
    exact hnot

/-- C10 witness: a turn holding one empty-data audio part and one text
part — the audio part is in the audio partition but contributes no
actions. -/
theorem C10_empty_audio_dropped_witness :
    { text := none,
      inlineData := some { mimeType := "audio/pcm;rate=24000", data := some "" } } ∈
      (separateContentParts
        [{ text := none,
           inlineData := some { mimeType := "audio/pcm;rate=24000", data := some "" } },
         { text := some "hi", inlineData := none }]).1 ∧
    audioPartActions
      { text := none,
        inlineData := some { mimeType := "audio/pcm;rate=24000", data := some "" } } = [] := by
  have h := C10_empty_audio_dropped
    [{ text := none,
       inlineData := some { mimeType := "audio/pcm;rate=24000", data := some "" } },
     { text := some "hi", inlineData := none }]
    { text := none,
      inlineData := some { mimeType := "audio/pcm;rate=24000", data := some "" } }
    (by simp)
    { mimeType := "audio/pcm;rate=24000", data := some "" }
    rfl
    (by decide)
    (Or.inr rfl)
  exact ⟨h.1, h.2.2.1⟩

end Src
